import Mathlib

/-!
Verification development for the lecroy-reader repository
(src/lecroyreader/lecroy.py).

The Python module is shallowly embedded below.  Conventions of the
embedding:

* file contents are a `List Nat` of byte values;
* Python bytes-object slicing (`raw[a:b]` with clamping and negative
  indices) is `pySlice`, Python list indexing (with negative wrap-around
  and `IndexError` past the bounds) is `pyListGet`;
* `struct` decoding of signed integers is exact; IEEE-754 float fields
  are decoded bit-faithfully into `PyFloat` (finite values become exact
  rationals, the infinities and NaN are separate constructors), and
  float64 arithmetic on finite values is exact rational arithmetic
  followed by `roundF64`, the round-to-nearest-even at 53-bit precision
  with overflow to infinity;
* the numpy calls that appear in the source (`np.fromstring`,
  `ndarray.reshape` with C and with Fortran order, `np.arange` on a
  scalar stop value) are modelled by `npFromstring`, `npReshapeRows`,
  `reshape2F` and `npArange`, each with a comment stating the semantics
  of the call at the argument shapes the source uses;
* native byte order (used by the bare "h" unpack at line 108 and by the
  numpy dtypes) is taken to be little-endian;
* Python exceptions are the `PyError` type and exception propagation is
  the `Except` monad / explicit match on results.  The specification
  speaks of a `FormatError`; the source module defines no such
  exception class, so the embedding carries a `formatError` constructor
  that no embedded code path ever produces.
-/

namespace Lecroy

/-- Python exceptions that the embedded code can raise.  `formatError`
is the exception named by the specification; the source defines no such
class and no embedded code path constructs it. -/
inductive PyError where
  | structError
  | indexError
  | valueError
  | typeError
  | keyError
  | formatError
deriving DecidableEq

/-- Byte order resolved for multi-byte field decoding: ">" (big) or "<"
(little). -/
inductive ByteOrder where
  | big
  | little
deriving DecidableEq

/-- A Python float: IEEE-754 doubles and singles decode to a finite
rational, a signed infinity, or NaN. -/
inductive PyFloat where
  | finite (q : ℚ)
  | inf (neg : Bool)
  | nan
deriving DecidableEq

/-- Floor of a rational, computable (`fdiv` of numerator by the
positive denominator). -/
def ratFloor (x : ℚ) : Int := Int.fdiv x.num (x.den : Int)

/-- Ceiling of a rational, computable. -/
def ratCeil (x : ℚ) : Int := Int.fdiv (x.num + (x.den : Int) - 1) (x.den : Int)

/-- Round a rational to the nearest integer, ties to even (the IEEE-754
default rounding direction). -/
def roundHalfEven (x : ℚ) : Int :=
  if x - (ratFloor x : ℚ) < 1 / 2 then ratFloor x
  else if 1 / 2 < x - (ratFloor x : ℚ) then ratFloor x + 1
  else if Int.emod (ratFloor x) 2 = 0 then ratFloor x else ratFloor x + 1

/-- Round a rational to float64 precision with unbounded exponent: the
unit in the last place is 2^(e-52) for magnitude exponent
e = floor(log2 |q|), floored at the subnormal ulp 2^-1074, and the
quotient by the ulp is rounded to the nearest integer, ties to even. -/
def roundQF64 (q : ℚ) : ℚ :=
  if q = 0 then 0
  else
    ((roundHalfEven (q / (2 : ℚ) ^ (max (Int.log 2 |q| - 52) (-1074))) : Int) :
        ℚ) * (2 : ℚ) ^ (max (Int.log 2 |q| - 52) (-1074))

/-- Round a rational to the nearest float64: values whose rounded
magnitude reaches 2^1024 overflow to a signed infinity, everything else
is the exact value of the rounded float64. -/
def roundF64 (q : ℚ) : PyFloat :=
  if (2 : ℚ) ^ (1024 : Int) ≤ |roundQF64 q| then PyFloat.inf (decide (q < 0))
  else PyFloat.finite (roundQF64 q)

/-- The exact values of the finite float64 numbers: an integer
significand of magnitude below 2^53 scaled by a power of two no smaller
than the subnormal ulp 2^-1074, with magnitude below 2^1024. -/
def RepresentableF64 (q : ℚ) : Prop :=
  ∃ m t : Int, q = (m : ℚ) * (2 : ℚ) ^ t ∧ |m| < 2 ^ 53 ∧ -1074 ≤ t ∧
    |q| < (2 : ℚ) ^ (1024 : Int)

/-- Float64 multiplication: the exact rational product rounded to the
nearest float64; infinities and NaN propagate in the IEEE way. -/
def pfMul : PyFloat → PyFloat → PyFloat
  | PyFloat.nan, _ => PyFloat.nan
  | _, PyFloat.nan => PyFloat.nan
  | PyFloat.finite a, PyFloat.finite b => roundF64 (a * b)
  | PyFloat.finite a, PyFloat.inf s =>
      if a = 0 then PyFloat.nan else PyFloat.inf (decide (a < 0) != s)
  | PyFloat.inf s, PyFloat.finite b =>
      if b = 0 then PyFloat.nan else PyFloat.inf (decide (b < 0) != s)
  | PyFloat.inf s, PyFloat.inf t => PyFloat.inf (s != t)

/-- Float64 addition: the exact rational sum rounded to the nearest
float64; infinities and NaN propagate in the IEEE way. -/
def pfAdd : PyFloat → PyFloat → PyFloat
  | PyFloat.nan, _ => PyFloat.nan
  | _, PyFloat.nan => PyFloat.nan
  | PyFloat.finite a, PyFloat.finite b => roundF64 (a + b)
  | PyFloat.finite _, PyFloat.inf s => PyFloat.inf s
  | PyFloat.inf s, PyFloat.finite _ => PyFloat.inf s
  | PyFloat.inf s, PyFloat.inf t => if s == t then PyFloat.inf s else PyFloat.nan

/-- A Python value as stored in the metadata dictionary: decoded header
fields are ints, floats, byte strings, tuples (composite fields), and,
after the pretty-formatting phase, text strings and lists. -/
inductive PyVal where
  | int (n : Int)
  | float (x : PyFloat)
  | bytes (bs : List Nat)
  | str (s : String)
  | tuple (vs : List PyVal)
  | list (vs : List PyVal)

/-- Python equality (the `==` of line 108) restricted to the shapes the
source compares.  Values of different types compare unequal; in
particular a tuple never equals an int, which is the one comparison the
source performs (`struct.unpack` result against `0`).  (Python's
numeric cross-type equality, e.g. int against float, is not modelled:
the source never compares across those types.) -/
def pyEq : PyVal → PyVal → Bool
  | PyVal.int a, PyVal.int b => a == b
  | PyVal.bytes a, PyVal.bytes b => a == b
  | PyVal.str a, PyVal.str b => a == b
  | _, _ => false

/-- Value of a little-endian byte list. -/
def leVal : List Nat → Nat
  | [] => 0
  | b :: rest => b + 256 * leVal rest

/-- Arrange bytes so that `leVal` computes the value in the given byte
order. -/
def ordered (bo : ByteOrder) (bs : List Nat) : List Nat :=
  match bo with
  | ByteOrder.little => bs
  | ByteOrder.big => bs.reverse

/-- Unsigned value of a byte span in the given byte order. -/
def decodeUnsigned (bo : ByteOrder) (bs : List Nat) : Nat :=
  leVal (ordered bo bs)

/-- Two's-complement reinterpretation of a `w`-bit unsigned value as a
signed integer. -/
def toSigned (w : Nat) (v : Nat) : Int :=
  if v < 2 ^ (w - 1) then (v : Int) else (v : Int) - 2 ^ w

/-- Bit-level decoding of an IEEE-754 double (sign, 11 exponent bits,
52 mantissa bits) from its unsigned 64-bit value. -/
def decodeF64 (v : Nat) : PyFloat :=
  let sign : Nat := v / 2 ^ 63
  let ex : Nat := (v / 2 ^ 52) % 2 ^ 11
  let mant : Nat := v % 2 ^ 52
  if ex = 2047 then
    if mant = 0 then PyFloat.inf (sign == 1) else PyFloat.nan
  else
    let mag : ℚ :=
      if ex = 0 then ((mant : ℚ) / 2 ^ 52) * 2 ^ (-1022 : Int)
      else (1 + (mant : ℚ) / 2 ^ 52) * 2 ^ ((ex : Int) - 1023)
    PyFloat.finite (if sign = 1 then -mag else mag)

/-- Bit-level decoding of an IEEE-754 single (sign, 8 exponent bits,
23 mantissa bits) from its unsigned 32-bit value. -/
def decodeF32 (v : Nat) : PyFloat :=
  let sign : Nat := v / 2 ^ 31
  let ex : Nat := (v / 2 ^ 23) % 2 ^ 8
  let mant : Nat := v % 2 ^ 23
  if ex = 255 then
    if mant = 0 then PyFloat.inf (sign == 1) else PyFloat.nan
  else
    let mag : ℚ :=
      if ex = 0 then ((mant : ℚ) / 2 ^ 23) * 2 ^ (-126 : Int)
      else (1 + (mant : ℚ) / 2 ^ 23) * 2 ^ ((ex : Int) - 127)
    PyFloat.finite (if sign = 1 then -mag else mag)

/-- Resolve a Python slice endpoint: negative indices count from the
end and both directions clamp to the range [0, L]. -/
def pyIndex (L : Nat) (i : Int) : Nat :=
  if i < 0 then (i + (L : Int)).toNat else min i.toNat L

/-- Python bytes slicing `raw[a:b]`. -/
def pySlice (raw : List Nat) (a b : Int) : List Nat :=
  (raw.drop (pyIndex raw.length a)).take (pyIndex raw.length b - pyIndex raw.length a)

/-- Python bytes slicing `raw[a:]`. -/
def pySliceFrom (raw : List Nat) (a : Int) : List Nat :=
  pySlice raw a (raw.length : Int)

/-- Python list indexing `xs[i]`: a negative index means `len(xs) + i`;
an index outside the resulting range raises IndexError; indices in
[-len, -1] therefore wrap around to the end of the list. -/
def pyListGet {α : Type} (xs : List α) (i : Int) : Except PyError α :=
  let j : Int := if i < 0 then (xs.length : Int) + i else i
  if h : 0 ≤ j ∧ j.toNat < xs.length then Except.ok (xs.get ⟨j.toNat, h.2⟩)
  else Except.error PyError.indexError

/-- Ordered-dictionary lookup (Python dicts preserve insertion order). -/
def dictLookup {α : Type} : List (String × α) → String → Option α
  | [], _ => none
  | (k, v) :: rest, key => if k == key then some v else dictLookup rest key

/-- Ordered-dictionary update of an existing key, keeping its position. -/
def dictSet {α : Type} (m : List (String × α)) (key : String) (v : α) :
    List (String × α) :=
  m.map fun p => if p.1 == key then (p.1, v) else p

/-- Python `bytes.strip(b"\x00")`: remove zero bytes from both ends. -/
def stripNul (bs : List Nat) : List Nat :=
  ((bs.dropWhile (· == 0)).reverse.dropWhile (· == 0)).reverse

/-- Worker for `bytes.find`: first position at or after `i` where `pat`
occurs, or -1. -/
def bytesFindFrom (pat : List Nat) : List Nat → Nat → Int
  | raw, i =>
    if pat.isPrefixOf raw then (i : Int)
    else
      match raw with
      | [] => -1
      | _ :: rest => bytesFindFrom pat rest (i + 1)

/-- Python `raw.find(pat)` (line 99): lowest offset of the pattern, or
-1 when the pattern does not occur.  No exception is raised. -/
def bytesFind (raw pat : List Nat) : Int :=
  bytesFindFrom pat raw 0

/-- The 8-byte marker b"WAVEDESC". -/
def WAVEDESC : List Nat := [87, 65, 86, 69, 68, 69, 83, 67]

/-- The struct format strings appearing in `lecroy_format`: fixed-length
byte strings ("16s"/"48s"), short ("h"), int ("i"), float ("f"), double
("d"), and the one composite "dbbbbhh" of the trigger_time field. -/
inductive Fmt where
  | s (n : Nat)
  | h
  | i
  | f
  | d
  | dbbbbhh
deriving DecidableEq

/-- `struct.Struct(fmt).size` (line 104).  The formats used carry no
alignment padding, so native and standard sizes coincide. -/
def fmtSize : Fmt → Nat
  | Fmt.s n => n
  | Fmt.h => 2
  | Fmt.i => 4
  | Fmt.f => 4
  | Fmt.d => 8
  | Fmt.dbbbbhh => 16

/-- `struct.unpack(fmt, bs)` in the given byte order: raises
struct.error unless the buffer length equals the format size, and
returns the tuple of decoded values ("h"/"i" are signed 16/32-bit
integers, "b" items of the composite are signed bytes, "s" yields the
raw bytes). -/
def structUnpack (bo : ByteOrder) (fmt : Fmt) (bs : List Nat) :
    Except PyError (List PyVal) :=
  if bs.length = fmtSize fmt then
    Except.ok
      (match fmt with
       | Fmt.s _ => [PyVal.bytes bs]
       | Fmt.h => [PyVal.int (toSigned 16 (decodeUnsigned bo bs))]
       | Fmt.i => [PyVal.int (toSigned 32 (decodeUnsigned bo bs))]
       | Fmt.f => [PyVal.float (decodeF32 (decodeUnsigned bo bs))]
       | Fmt.d => [PyVal.float (decodeF64 (decodeUnsigned bo bs))]
       | Fmt.dbbbbhh =>
           [PyVal.float (decodeF64 (decodeUnsigned bo ((bs.drop 0).take 8))),
            PyVal.int (toSigned 8 (decodeUnsigned bo ((bs.drop 8).take 1))),
            PyVal.int (toSigned 8 (decodeUnsigned bo ((bs.drop 9).take 1))),
            PyVal.int (toSigned 8 (decodeUnsigned bo ((bs.drop 10).take 1))),
            PyVal.int (toSigned 8 (decodeUnsigned bo ((bs.drop 11).take 1))),
            PyVal.int (toSigned 16 (decodeUnsigned bo ((bs.drop 12).take 2))),
            PyVal.int (toSigned 16 (decodeUnsigned bo ((bs.drop 14).take 2)))])
  else Except.error PyError.structError

/-- The static field table `lecroy_format` (lines 4-60): field name,
byte offset relative to the descriptor base, struct format. -/
def lecroy_format : List (String × Int × Fmt) :=
  [("descriptor_name", 0, Fmt.s 16),
   ("template_name", 16, Fmt.s 16),
   ("comm_type", 32, Fmt.h),
   ("comm_order", 34, Fmt.h),
   ("wave_descriptor", 36, Fmt.i),
   ("user_text", 40, Fmt.i),
   ("res_desc1", 44, Fmt.i),
   ("trig_time_array", 48, Fmt.i),
   ("ris_time_array", 52, Fmt.i),
   ("res_array1", 56, Fmt.i),
   ("wave_array1", 60, Fmt.i),
   ("wave_array2", 64, Fmt.i),
   ("res_array2", 68, Fmt.i),
   ("res_array3", 72, Fmt.i),
   ("instrument_name", 76, Fmt.s 16),
   ("instrument_number", 92, Fmt.i),
   ("trace_label", 96, Fmt.s 16),
   ("reserved1", 112, Fmt.h),
   ("reserved2", 114, Fmt.h),
   ("wave_array_count", 116, Fmt.i),
   ("points_per_screen", 120, Fmt.i),
   ("first_valid_point", 124, Fmt.i),
   ("last_valid_point", 128, Fmt.i),
   ("first_point", 132, Fmt.i),
   ("sparsing_factor", 136, Fmt.i),
   ("segment_index", 140, Fmt.i),
   ("subarray_count", 144, Fmt.i),
   ("sweeps_per_acq", 148, Fmt.i),
   ("points_per_pair", 152, Fmt.h),
   ("pair_offset", 154, Fmt.h),
   ("vertical_gain", 156, Fmt.f),
   ("vertical_offset", 160, Fmt.f),
   ("max_value", 164, Fmt.f),
   ("min_value", 168, Fmt.f),
   ("nominal_bits", 172, Fmt.h),
   ("nom_subarray_count", 174, Fmt.h),
   ("horiz_interval", 176, Fmt.f),
   ("horiz_offset", 180, Fmt.d),
   ("pixel_offset", 188, Fmt.d),
   ("vert_unit", 196, Fmt.s 48),
   ("horiz_unit", 244, Fmt.s 48),
   ("horiz_uncertainty", 292, Fmt.f),
   ("trigger_time", 296, Fmt.dbbbbhh),
   ("acq_duration", 312, Fmt.f),
   ("record_type", 316, Fmt.h),
   ("processing_done", 318, Fmt.h),
   ("reserved5", 320, Fmt.h),
   ("ris_sweeps", 322, Fmt.h),
   ("time_base", 324, Fmt.h),
   ("vert_coupling", 326, Fmt.h),
   ("probe_att", 328, Fmt.f),
   ("fixed_vert_gain", 332, Fmt.h),
   ("bandwidth_limit", 334, Fmt.h),
   ("vertical_vernier", 336, Fmt.f),
   ("acq_vert_offset", 340, Fmt.f),
   ("wave_source", 344, Fmt.h)]

/-- Format lookup `lecroy_format[field][1]` used by the unpack loop
(line 115). -/
def lookupFmt (field : String) : Option Fmt :=
  (dictLookup lecroy_format field).map fun e => e.2

/-- Lines 102-105: slice the raw field bytes of every table entry into
the metadata dictionary, in table order. -/
def sliceFields (raw : List Nat) (startpos : Int) : List (String × List Nat) :=
  lecroy_format.map fun e =>
    (e.1, pySlice raw (startpos + e.2.1) (startpos + e.2.1 + (fmtSize e.2.2 : Int)))

/-- Lines 107-111: the byte-order resolution.  The source compares the
result of `struct.unpack("h", metadata["comm_order"])` - a one-element
tuple - with the integer 0 using Python `==`; a tuple never equals an
int, so the comparison is False for every buffer and the little-endian
branch is always taken.  (The bare "h" format uses native byte order,
modelled as little-endian.) -/
def resolveByteOrder (commOrderBytes : List Nat) : Except PyError ByteOrder :=
  match structUnpack ByteOrder.little Fmt.h commOrderBytes with
  | Except.error e => Except.error e
  | Except.ok t =>
      Except.ok
        (if pyEq (PyVal.tuple t) (PyVal.int 0) then ByteOrder.big
         else ByteOrder.little)

/-- Lines 114-120, one field: unpack with the resolved byte order, take
element 0 of the tuple except for trigger_time (which keeps the whole
tuple), and strip NUL bytes from string-format values. -/
def decodeField (bo : ByteOrder) (name : String) (fmt : Fmt) (bs : List Nat) :
    Except PyError PyVal :=
  match structUnpack bo fmt bs with
  | Except.error e => Except.error e
  | Except.ok t =>
      match
        (if name == "trigger_time" then Except.ok (PyVal.tuple t)
         else
           match t with
           | [] => Except.error PyError.indexError
           | v :: _ => Except.ok v) with
      | Except.error e => Except.error e
      | Except.ok v0 =>
          Except.ok
            (match fmt, v0 with
             | Fmt.s _, PyVal.bytes b => PyVal.bytes (stripNul b)
             | _, v => v)

/-- Lines 114-120, the loop over the metadata dictionary: the first
raised exception aborts the whole read. -/
def decodeAll (bo : ByteOrder) :
    List (String × List Nat) → Except PyError (List (String × PyVal))
  | [] => Except.ok []
  | (f, bs) :: rest =>
      match lookupFmt f with
      | none => Except.error PyError.keyError
      | some fmt =>
          match decodeField bo f fmt bs with
          | Except.error e => Except.error e
          | Except.ok v =>
              match decodeAll bo rest with
              | Except.error e => Except.error e
              | Except.ok vs => Except.ok ((f, v) :: vs)

/-- Lines 123-124: `list(metadata["trigger_time"])[:-1]` followed by an
in-place `reverse()`. -/
def prettyTriggerTime (vs : List PyVal) : List PyVal :=
  vs.dropLast.reverse

/-- The record_type lookup table (lines 125-135). -/
def record_type_table : List String :=
  ["single sweep", "interleaved", "histogram", "graph", "filter coefficient",
   "complex", "extrema", "sequence obsolete", "centered RIS", "peak detect"]

/-- The processing_done lookup table (lines 136-144). -/
def processing_done_table : List String :=
  ["no processing", "fir filter", "interpolated", "sparsed", "autoscaled",
   "no result", "rolling", "cumulative"]

/-- The vert_coupling lookup table (lines 145-150). -/
def vert_coupling_table : List String :=
  ["DC 50 Ohm", "ground", "DC 1 MOhm", "ground", "AC 1 MOhm"]

/-- The 9-entry magnitude table written literally at lines 155 and 160. -/
def magnitude_values : List Nat := [1, 2, 5, 10, 20, 50, 100, 200, 500]

/-- The time_base decade-prefix table (line 156). -/
def tb_prefixes : List String := ["p", "n", "u", "m", "", "k"]

/-- The fixed_vert_gain decade-prefix table (line 161). -/
def fvg_prefixes : List String := ["u", "m", "", "k"]

/-- Line 125-135: record_type code to label, by Python list indexing. -/
def translateRecordType (code : Int) : Except PyError String :=
  pyListGet record_type_table code

/-- Line 136-144: processing_done code to label. -/
def translateProcessingDone (code : Int) : Except PyError String :=
  pyListGet processing_done_table code

/-- Line 145-150: vert_coupling code to label. -/
def translateVertCoupling (code : Int) : Except PyError String :=
  pyListGet vert_coupling_table code

/-- Lines 151-157: time_base code 100 is the literal "external";
otherwise the magnitude is indexed by the Python `%` (floor mod) and the
prefix by the Python `//` (floor division) of the code by 9, composed
into a string "value prefixs/div". -/
def translateTimeBase (tb : Int) : Except PyError String :=
  if tb = 100 then Except.ok "external"
  else
    match pyListGet magnitude_values (Int.emod tb 9) with
    | Except.error e => Except.error e
    | Except.ok v =>
        match pyListGet tb_prefixes (Int.fdiv tb 9) with
        | Except.error e => Except.error e
        | Except.ok p => Except.ok (toString v ++ " " ++ p ++ "s/div")

/-- Lines 159-162: fixed_vert_gain uses the same decomposition with a
4-entry prefix table and unit "V/div"; there is no special case. -/
def translateFixedVertGain (fvt : Int) : Except PyError String :=
  match pyListGet magnitude_values (Int.emod fvt 9) with
  | Except.error e => Except.error e
  | Except.ok v =>
      match pyListGet fvg_prefixes (Int.fdiv fvt 9) with
      | Except.error e => Except.error e
      | Except.ok p => Except.ok (toString v ++ " " ++ p ++ "V/div")

/-- Dictionary access `metadata[key]`; a missing key would be a KeyError
(never reached: all keys come from the static table). -/
def getVal (m : List (String × PyVal)) (key : String) : Except PyError PyVal :=
  match dictLookup m key with
  | some v => Except.ok v
  | none => Except.error PyError.keyError

/-- `list(...)` applied to the trigger_time value: a tuple (or list)
converts; any other value would raise a TypeError. -/
def asTuple : PyVal → Except PyError (List PyVal)
  | PyVal.tuple vs => Except.ok vs
  | PyVal.list vs => Except.ok vs
  | _ => Except.error PyError.typeError

/-- A metadata value used as an integer (list index, arithmetic); a
non-int value would raise a TypeError in Python. -/
def pyValAsInt : PyVal → Except PyError Int
  | PyVal.int n => Except.ok n
  | _ => Except.error PyError.typeError

/-- A metadata value used as a float scalar (the numpy scaling
arithmetic); a non-float value would raise a TypeError. -/
def pyValAsFloat : PyVal → Except PyError PyFloat
  | PyVal.float x => Except.ok x
  | _ => Except.error PyError.typeError

/-- Lines 122-162: the pretty-formatting phase, overwriting the listed
fields of the metadata dictionary in place, in source order. -/
def prettyPhase (m0 : List (String × PyVal)) :
    Except PyError (List (String × PyVal)) := do
  let tt ← getVal m0 "trigger_time"
  let vs ← asTuple tt
  let m1 := dictSet m0 "trigger_time" (PyVal.list (prettyTriggerTime vs))
  let rc ← pyValAsInt (← getVal m1 "record_type")
  let rs ← translateRecordType rc
  let m2 := dictSet m1 "record_type" (PyVal.str rs)
  let pc ← pyValAsInt (← getVal m2 "processing_done")
  let ps ← translateProcessingDone pc
  let m3 := dictSet m2 "processing_done" (PyVal.str ps)
  let vc ← pyValAsInt (← getVal m3 "vert_coupling")
  let vcs ← translateVertCoupling vc
  let m4 := dictSet m3 "vert_coupling" (PyVal.str vcs)
  let tb ← pyValAsInt (← getVal m4 "time_base")
  let tbs ← translateTimeBase tb
  let m5 := dictSet m4 "time_base" (PyVal.str tbs)
  let fv ← pyValAsInt (← getVal m5 "fixed_vert_gain")
  let fvs ← translateFixedVertGain fv
  pure (dictSet m5 "fixed_vert_gain" (PyVal.str fvs))

/-- `np.fromstring(bs, dtype, count)` for an item size in bytes and an
item decoder: a negative count reads every complete item and requires
the buffer length to be a multiple of the item size; a non-negative
count requires at least `count * itemsize` bytes and reads exactly
`count` items from the front; failure is a ValueError. -/
def npFromstring {α : Type} (itemsize : Nat) (bs : List Nat) (count : Int)
    (dec : List Nat → α) : Except PyError (List α) :=
  if count < 0 then
    if bs.length % itemsize = 0 then
      Except.ok
        ((List.range (bs.length / itemsize)).map fun j =>
          dec ((bs.drop (itemsize * j)).take itemsize))
    else Except.error PyError.valueError
  else if bs.length < itemsize * count.toNat then Except.error PyError.valueError
  else
    Except.ok
      ((List.range count.toNat).map fun j =>
        dec ((bs.drop (itemsize * j)).take itemsize))

/-- Item decoder for dtype np.float64 (native little-endian). -/
def decF64 (bs : List Nat) : PyFloat := decodeF64 (leVal bs)

/-- Item decoder for dtype np.int8. -/
def decInt8 (bs : List Nat) : Int := toSigned 8 (leVal bs)

/-- Item decoder for dtype np.int16 (native little-endian). -/
def decInt16 (bs : List Nat) : Int := toSigned 16 (leVal bs)

/-- Elements of a list at even positions. -/
def evens {α : Type} : List α → List α
  | [] => []
  | [x] => [x]
  | x :: _ :: rest => x :: evens rest

/-- Elements of a list at odd positions. -/
def odds {α : Type} : List α → List α
  | [] => []
  | [_] => []
  | _ :: y :: rest => y :: odds rest

/-- `a.reshape(2, -1, order="F")` on a one-dimensional array (line 170):
the inferred second dimension requires the length to be even (otherwise
ValueError) and Fortran order makes row i, column j the flat element
`i + 2*j`, so row 0 holds the elements at even flat positions and row 1
those at odd flat positions. -/
def reshape2F {α : Type} (xs : List α) : Except PyError (List α × List α) :=
  if xs.length % 2 = 0 then Except.ok (evens xs, odds xs)
  else Except.error PyError.valueError

/-- `a.reshape(N, -1)` on a one-dimensional array (line 187, C order):
the length must be divisible by N (otherwise ValueError) and row i is
the flat slice `[i*(n/N), (i+1)*(n/N))`. -/
def npReshapeRows {α : Type} (N : Nat) (xs : List α) :
    Except PyError (List (List α)) :=
  if xs.length % N = 0 then
    Except.ok
      ((List.range N).map fun i =>
        (xs.drop (i * (xs.length / N))).take (xs.length / N))
  else Except.error PyError.valueError

/-- Lines 165-170: slice from `startpos + wave_descriptor + user_text`,
read `int(trig_time_array / 8)` doubles (the division is exact in
float64 for any int32 value, and `int` truncates toward zero, hence
`Int.tdiv`), and reshape to two Fortran-order rows. -/
def readTrigtimes (raw : List Nat)
    (startpos wave_descriptor user_text trig_time_array : Int) :
    Except PyError (List PyFloat × List PyFloat) :=
  match npFromstring 8
      (pySliceFrom raw (startpos + wave_descriptor + user_text))
      (Int.tdiv trig_time_array 8) decF64 with
  | Except.error e => Except.error e
  | Except.ok flat => reshape2F flat

/-- A sample array before segment reshaping: raw integers, or floats
after scaling. -/
inductive SampleData where
  | ints (xs : List Int)
  | floats (xs : List PyFloat)

/-- Lines 182-184: `data * vertical_gain` followed by
`data += vertical_offset`, elementwise. -/
def applyScaling (data : List Int) (vg vo : PyFloat) : List PyFloat :=
  data.map fun v : Int => pfAdd (pfMul (PyFloat.finite (v : ℚ)) vg) vo

/-- Lines 181-184: the samples are scaled to floats only when `scale`
is requested; otherwise they stay the raw decoded integers. -/
def scaleStep (scale : Bool) (dataRaw : List Int) (vg vo : PyFloat) :
    SampleData :=
  if scale then SampleData.floats (applyScaling dataRaw vg vo)
  else SampleData.ints dataRaw

/-- The final shape of the sample array: one- or two-dimensional,
integer or float. -/
inductive Samples where
  | ints1 (xs : List Int)
  | floats1 (xs : List PyFloat)
  | ints2 (xss : List (List Int))
  | floats2 (xss : List (List PyFloat))

/-- Lines 186-187: reshape into `subarray_count` rows when
`subarray_count > 1`, otherwise leave the flat array unchanged. -/
def samplesReshape (sc : Int) (d : SampleData) : Except PyError Samples :=
  if 1 < sc then
    match d with
    | SampleData.ints xs => (npReshapeRows sc.toNat xs).map Samples.ints2
    | SampleData.floats xs => (npReshapeRows sc.toNat xs).map Samples.floats2
  else
    Except.ok
      (match d with
       | SampleData.ints xs => Samples.ints1 xs
       | SampleData.floats xs => Samples.floats1 xs)

/-- The value of `read`: metadata only, or metadata with trigger times
and data. -/
inductive ReadResult where
  | meta (m : List (String × PyVal))
  | full (m : List (String × PyVal)) (trigtimes : List PyFloat × List PyFloat)
      (data : Samples)

/-- Lines 97-162 of `read`: locate the marker (`find` returns -1 when
absent and nothing checks for it), slice all field bytes, resolve the
byte order from comm_order, unpack every field, and pretty-format the
translated fields. -/
def readMeta (raw : List Nat) :
    Except PyError (Int × List (String × PyVal)) :=
  match dictLookup (sliceFields raw (bytesFind raw WAVEDESC)) "comm_order" with
  | none => Except.error PyError.keyError
  | some commBytes =>
      match resolveByteOrder commBytes with
      | Except.error e => Except.error e
      | Except.ok boc =>
          match decodeAll boc (sliceFields raw (bytesFind raw WAVEDESC)) with
          | Except.error e => Except.error e
          | Except.ok metadata1 =>
              match prettyPhase metadata1 with
              | Except.error e => Except.error e
              | Except.ok m => Except.ok (bytesFind raw WAVEDESC, m)

/-- Lines 164-189 of `read`: trigger times, sample decoding (comm_type
zero means int8 samples, anything nonzero means int16), scaling and
segment reshaping.  (The source looks vertical_gain/vertical_offset up
inside the scale branch; the lookups are total here, so hoisting them
is observationally equal.) -/
def readData (raw : List Nat) (startpos : Int)
    (metadata : List (String × PyVal)) (scale : Bool) :
    Except PyError ReadResult := do
  let wd ← pyValAsInt (← getVal metadata "wave_descriptor")
  let ut ← pyValAsInt (← getVal metadata "user_text")
  let tta ← pyValAsInt (← getVal metadata "trig_time_array")
  let trigtimes ← readTrigtimes raw startpos wd ut tta
  let ct ← pyValAsInt (← getVal metadata "comm_type")
  let wac ← pyValAsInt (← getVal metadata "wave_array_count")
  let data_startpos := startpos + wd + ut + tta
  let dataRaw ←
    if ct != 0 then npFromstring 2 (pySliceFrom raw data_startpos) wac decInt16
    else npFromstring 1 (pySliceFrom raw data_startpos) wac decInt8
  let vg ← pyValAsFloat (← getVal metadata "vertical_gain")
  let vo ← pyValAsFloat (← getVal metadata "vertical_offset")
  let scaled := scaleStep scale dataRaw vg vo
  let sc ← pyValAsInt (← getVal metadata "subarray_count")
  let final ← samplesReshape sc scaled
  pure (ReadResult.full metadata trigtimes final)

/-- The entry point `read(fn, readdata, scale)` (lines 63-191) on the
byte content of the file. -/
def read (raw : List Nat) (readdata scale : Bool) : Except PyError ReadResult :=
  match readMeta raw with
  | Except.error e => Except.error e
  | Except.ok (startpos, metadata) =>
      if readdata then readData raw startpos metadata scale
      else Except.ok (ReadResult.meta metadata)

/-- `np.arange(stop)` for a scalar stop value: the values 0, 1, 2, ...
strictly below `stop` - that is, `max 0 (ceil stop)` consecutive
integers starting at 0. -/
def npArange (stop : ℚ) : List ℚ :=
  (List.range (ratCeil stop).toNat).map fun i : Nat => (i : ℚ)

/-- `Trace.get_times` (lines 235-239): the source computes
`np.arange(points * horiz_interval + horiz_offset)` where `points` is
the size of the innermost data dimension. -/
def get_times (points : Nat) (horiz_interval horiz_offset : ℚ) : List ℚ :=
  npArange ((points : ℚ) * horiz_interval + horiz_offset)

/-- Modelled from the spec (§4.5, and claim C9): the time axis the
specification describes, `index * horiz_interval + horiz_offset` for
each sample index of the innermost dimension. -/
def specTimeAxis (points : Nat) (horiz_interval horiz_offset : ℚ) : List ℚ :=
  (List.range points).map fun i : Nat => (i : ℚ) * horiz_interval + horiz_offset

/-- Modelled from the spec (§4.4, claim C4): the claimed trigger-pair
layout, obtained by splitting the flat sequence into two equal halves
along the read order and zipping the halves by index. -/
def specSplitHalvesPairing {α : Type} (xs : List α) : List α × List α :=
  (xs.take (xs.length / 2), xs.drop (xs.length / 2))

instance {ε α : Type} [DecidableEq ε] [DecidableEq α] :
    DecidableEq (Except ε α) := fun x y =>
  match x, y with
  | Except.error u, Except.error v =>
      if h : u = v then isTrue (by rw [h])
      else isFalse (fun hc => by cases hc; exact h rfl)
  | Except.ok u, Except.ok v =>
      if h : u = v then isTrue (by rw [h])
      else isFalse (fun hc => by cases hc; exact h rfl)
  | Except.error _, Except.ok _ => isFalse (fun hc => by cases hc)
  | Except.ok _, Except.error _ => isFalse (fun hc => by cases hc)

lemma pyIndex_le (L : Nat) (i : Int) : pyIndex L i ≤ L := by
  unfold pyIndex
  split <;> omega

lemma pyIndex_nonneg_eq (L : Nat) (i : Int) (h : 0 ≤ i) :
    pyIndex L i = min i.toNat L := by
  unfold pyIndex
  rw [ if_neg (by omega)]

lemma pyIndex_neg_eq (L : Nat) (i : Int) (h : i < 0) :
    pyIndex L i = (i + (L : Int)).toNat := by
  unfold pyIndex
  rw [ if_pos h]

lemma pySlice_length (raw : List Nat) (a b : Int) :
    (pySlice raw a b).length =
      pyIndex raw.length b - pyIndex raw.length a := by
  unfold pySlice
  rw [List.length_take, List.length_drop]
  have := pyIndex_le raw.length b
  omega

lemma pySliceFrom_of_nonneg (raw : List Nat) (a : Int) (h : 0 ≤ a) :
    pySliceFrom raw a = raw.drop a.toNat := by
  unfold pySliceFrom pySlice pyIndex
  have h1 : ¬ a < 0 := by omega
  have h2 : ¬ ((raw.length : Int) < 0) := by omega
  rw [ if_neg h1, if_neg h2]
  rcases le_or_lt a.toNat raw.length with hle | hlt
  · rw [Int.toNat_natCast, min_eq_left hle, min_eq_right le_rfl]
    apply List.take_of_length_le
    rw [List.length_drop]
  · rw [Int.toNat_natCast, min_eq_right (le_of_lt hlt), min_eq_right le_rfl]
    rw [List.drop_eq_nil_of_le (le_of_lt hlt), List.drop_eq_nil_of_le le_rfl]
    simp

lemma getD_of_lt {α : Type} :
    ∀ (xs : List α) (n : Nat) (d : α) (h : n < xs.length),
      xs.getD n d = xs.get ⟨n, h⟩
  | x :: _, 0, _, _ => rfl
  | _ :: xs, n + 1, d, h =>
      getD_of_lt xs n d (by simpa using Nat.lt_of_succ_lt_succ h)

/-- Closed form of Python list indexing: out of [-len, len) is an
IndexError, otherwise the (possibly wrapped) element. -/
lemma pyListGet_eq {α : Type} (xs : List α) (d : α) (i : Int) :
    pyListGet xs i =
      if i < -(xs.length : Int) ∨ (xs.length : Int) ≤ i then
        Except.error PyError.indexError
      else
        Except.ok
          (xs.getD (if i < 0 then (xs.length : Int) + i else i).toNat d) := by
  unfold pyListGet
  by_cases hi : i < 0
  · simp only [ if_pos hi]
    by_cases hb : 0 ≤ (xs.length : Int) + i ∧
        ((xs.length : Int) + i).toNat < xs.length
    · have hout : ¬ (i < -(xs.length : Int) ∨ (xs.length : Int) ≤ i) := by
        omega
      rw [dif_pos hb, if_neg hout, getD_of_lt _ _ d hb.2]
    · have hout : i < -(xs.length : Int) ∨ (xs.length : Int) ≤ i := by omega
      rw [dif_neg hb, if_pos hout]
  · simp only [ if_neg hi]
    by_cases hb : 0 ≤ i ∧ i.toNat < xs.length
    · have hout : ¬ (i < -(xs.length : Int) ∨ (xs.length : Int) ≤ i) := by
        omega
      rw [dif_pos hb, if_neg hout, getD_of_lt _ _ d hb.2]
    · have hout : i < -(xs.length : Int) ∨ (xs.length : Int) ≤ i := by omega
      rw [dif_neg hb, if_pos hout]

lemma evens_getElem? {α : Type} :
    ∀ (xs : List α) (j : Nat), (evens xs)[j]? = xs[2 * j]?
  | [], j => by simp [evens]
  | [x], j => by
      cases j with
      | zero => simp [evens]
      | succ n =>
          rw [show 2 * (n + 1) = 2 * n + 1 + 1 by ring]
          simp [evens]
  | x :: y :: rest, j => by
      cases j with
      | zero => simp [evens]
      | succ n =>
          have h1 : evens (x :: y :: rest) = x :: evens rest := rfl
          rw [h1, List.getElem?_cons_succ,
            show 2 * (n + 1) = 2 * n + 1 + 1 by ring,
            List.getElem?_cons_succ, List.getElem?_cons_succ]
          exact evens_getElem? rest n

lemma odds_getElem? {α : Type} :
    ∀ (xs : List α) (j : Nat), (odds xs)[j]? = xs[2 * j + 1]?
  | [], j => by simp [odds]
  | [x], j => by
      cases j with
      | zero => simp [odds]
      | succ n =>
          rw [show 2 * (n + 1) + 1 = 2 * n + 1 + 1 + 1 by ring]
          simp [odds]
  | x :: y :: rest, j => by
      cases j with
      | zero => simp [odds]
      | succ n =>
          have h1 : odds (x :: y :: rest) = y :: odds rest := rfl
          rw [h1, List.getElem?_cons_succ,
            show 2 * (n + 1) + 1 = 2 * n + 1 + 1 + 1 by ring,
            List.getElem?_cons_succ, List.getElem?_cons_succ]
          exact odds_getElem? rest n

lemma evens_length {α : Type} :
    ∀ xs : List α, (evens xs).length = (xs.length + 1) / 2
  | [] => by simp [evens]
  | [_] => by simp [evens]
  | _ :: _ :: rest => by
      show (evens rest).length + 1 = _
      rw [evens_length rest]
      simp only [List.length_cons]
      omega

lemma odds_length {α : Type} :
    ∀ xs : List α, (odds xs).length = xs.length / 2
  | [] => by simp [odds]
  | [_] => by simp [odds]
  | _ :: _ :: rest => by
      show (odds rest).length + 1 = _
      rw [odds_length rest]
      simp only [List.length_cons]
      omega

/-- Joining the C-order rows of a reshape recovers the flat list. -/
lemma chunks_join {α : Type} (M : Nat) :
    ∀ (N : Nat) (xs : List α), xs.length = N * M →
      ((List.range N).map fun i => (xs.drop (i * M)).take M).flatten = xs := by
  intro N
  induction N with
  | zero => intro xs h; simp at h; simp [h]
  | succ n ih =>
      intro xs h
      have hsm : (n + 1) * M = n * M + M := Nat.succ_mul n M
      rw [List.range_succ_eq_map, List.map_cons, List.map_map,
        List.flatten_cons]
      have hz : (xs.drop (0 * M)).take M = xs.take M := by
        rw [Nat.zero_mul]
        rfl
      rw [hz]
      have hrest : List.map ((fun i => (xs.drop (i * M)).take M) ∘ Nat.succ)
            (List.range n) =
          List.map (fun i => (((xs.drop M).drop (i * M)).take M))
            (List.range n) := by
        apply List.map_congr_left
        intro i _
        show (xs.drop (Nat.succ i * M)).take M = _
        rw [List.drop_drop,
          show M + i * M = Nat.succ i * M by rw [Nat.succ_mul]; omega]
      rw [hrest, ih (xs.drop M) (by rw [List.length_drop]; omega)]
      exact List.take_append_drop M xs

/-- `bytes.find` yields -1 exactly when the pattern occurs nowhere. -/
lemma bytesFindFrom_eq_neg_one (raw : List Nat)
    (h : ¬ ∃ s t : List Nat, raw = s ++ WAVEDESC ++ t) :
    ∀ i : Nat, bytesFindFrom WAVEDESC raw i = -1 := by
  induction raw with
  | nil =>
      intro i
      rw [bytesFindFrom]
      rfl
  | cons a rest ih =>
      intro i
      rw [bytesFindFrom]
      by_cases hp : WAVEDESC.isPrefixOf (a :: rest)
      · exfalso
        obtain ⟨t, ht⟩ := List.isPrefixOf_iff_prefix.mp hp
        exact h ⟨[], t, by simpa using ht.symm⟩
      · rw [ if_neg hp]
        exact ih (fun ⟨s, t, hst⟩ => h ⟨a :: s, t, by rw [hst]; rfl⟩) (i + 1)

/-- If the head field of the dictionary fails to decode, the whole
unpack loop fails with that error. -/
lemma decodeAll_cons_error (bo : ByteOrder) (f : String) (bs : List Nat)
    (rest : List (String × List Nat)) (fmt : Fmt) (e : PyError)
    (hf : lookupFmt f = some fmt)
    (he : decodeField bo f fmt bs = Except.error e) :
    decodeAll bo ((f, bs) :: rest) = Except.error e := by
  simp only [decodeAll, hf, he]

lemma tdiv_eight_mul (k : Nat) :
    Int.tdiv ((8 * k : Nat) : Int) 8 = (k : Int) := by
  have h : Int.tdiv ((8 * k : Nat) : Int) 8 = (((8 * k) / 8 : Nat) : Int) := rfl
  rw [h, Nat.mul_div_cancel_left k (by norm_num)]

lemma ratFloor_eq_floor (x : ℚ) : ratFloor x = ⌊x⌋ := by
  unfold ratFloor
  rw [Int.fdiv_eq_ediv _ (by exact_mod_cast Nat.zero_le x.den)]
  exact Rat.floor_def.symm

lemma roundHalfEven_intCast (k : Int) : roundHalfEven ((k : Int) : ℚ) = k := by
  unfold roundHalfEven
  rw [ratFloor_eq_floor, Int.floor_intCast, sub_self]
  rw [ if_pos (by norm_num)]

/-- Rounding to float64 precision is the identity on representable
values. -/
lemma roundQF64_eq_self (q : ℚ) (h : RepresentableF64 q) : roundQF64 q = q := by
  obtain ⟨m, t, hq, hm, ht, _⟩ := h
  by_cases h0 : q = 0
  · rw [h0]
    unfold roundQF64
    rw [ if_pos rfl]
  · unfold roundQF64
    rw [ if_neg h0]
    have habs : 0 < |q| := abs_pos.mpr h0
    have hqlt : |q| < (2 : ℚ) ^ (t + 53) := by
      rw [hq, abs_mul, abs_of_pos (zpow_pos (by norm_num : (0:ℚ) < 2) t)]
      have hmq : |(m : ℚ)| < (2 : ℚ) ^ (53 : Nat) := by
        rw [← Int.cast_abs]
        exact_mod_cast hm
      calc |(m : ℚ)| * (2 : ℚ) ^ t
          < (2 : ℚ) ^ (53 : Nat) * (2 : ℚ) ^ t :=
            mul_lt_mul_of_pos_right hmq (zpow_pos (by norm_num) t)
        _ = (2 : ℚ) ^ (t + 53) := by
            rw [← zpow_natCast (2 : ℚ) 53, ← zpow_add₀ (by norm_num : (2:ℚ) ≠ 0)]
            norm_num [add_comm]
    have hlog : Int.log 2 |q| < t + 53 :=
      (Int.lt_zpow_iff_log_lt (by norm_num) habs).mp (by exact_mod_cast hqlt)
    set u : Int := max (Int.log 2 |q| - 52) (-1074) with hudef
    have htu : u ≤ t := max_le (by omega) ht
    have hk : q / (2 : ℚ) ^ u = ((m * 2 ^ (t - u).toNat : Int) : ℚ) := by
      rw [hq]
      push_cast
      rw [← zpow_natCast (2 : ℚ) (t - u).toNat, Int.toNat_of_nonneg (by omega),
        mul_div_assoc, ← zpow_sub₀ (by norm_num : (2:ℚ) ≠ 0)]
    rw [hk, roundHalfEven_intCast, ← hk,
      div_mul_cancel₀ _ (zpow_ne_zero u (by norm_num : (2:ℚ) ≠ 0))]

/-- Rounding to the nearest float64 is the identity on representable
values (no overflow, exact value kept). -/
lemma roundF64_eq_self (q : ℚ) (h : RepresentableF64 q) :
    roundF64 q = PyFloat.finite q := by
  obtain ⟨m, t, hq, hm, ht, hlt⟩ := h
  unfold roundF64
  rw [roundQF64_eq_self q ⟨m, t, hq, hm, ht, hlt⟩]
  rw [ if_neg (not_le.mpr hlt)]

lemma representable_int (n : Int) (h : |n| < 2 ^ 53) :
    RepresentableF64 ((n : Int) : ℚ) := by
  refine ⟨n, 0, by rw [zpow_zero, mul_one], h, by norm_num, ?_⟩
  have h1 : |(n : ℚ)| < (2 : ℚ) ^ (53 : Nat) := by
    rw [← Int.cast_abs]
    exact_mod_cast h
  calc |(n : ℚ)| < (2 : ℚ) ^ (53 : Nat) := h1
    _ ≤ (2 : ℚ) ^ (1024 : Nat) := by norm_num
    _ = (2 : ℚ) ^ (1024 : Int) := by
        rw [← zpow_natCast]
        norm_num

lemma representable_mulInt (v w : Int) (h : |v * w| < 2 ^ 53) :
    RepresentableF64 ((v : ℚ) * (w : ℚ)) := by
  have hc : (v : ℚ) * (w : ℚ) = ((v * w : Int) : ℚ) := by push_cast; ring
  rw [hc]
  exact representable_int _ h

lemma representable_mul_add_int (v w u : Int) (h : |v * w + u| < 2 ^ 53) :
    RepresentableF64 ((v : ℚ) * (w : ℚ) + (u : ℚ)) := by
  have hc : (v : ℚ) * (w : ℚ) + (u : ℚ) = ((v * w + u : Int) : ℚ) := by
    push_cast; ring
  rw [hc]
  exact representable_int _ h

lemma log_one_add_eps : Int.log 2 ((1 : ℚ) + (2 : ℚ) ^ (-60 : Int)) = 0 := by
  have hpos : (0 : ℚ) < (2 : ℚ) ^ (-60 : Int) := zpow_pos (by norm_num) _
  have h1 : (1 : ℚ) ≤ 1 + (2 : ℚ) ^ (-60 : Int) := by linarith
  have hr : (0 : ℚ) < 1 + (2 : ℚ) ^ (-60 : Int) := by linarith
  have h2 : (1 : ℚ) + (2 : ℚ) ^ (-60 : Int) < 2 := by
    rw [show (-60 : Int) = -((60 : Nat) : Int) by norm_num, zpow_neg,
      zpow_natCast]
    norm_num
  have hlo : (0 : Int) ≤ Int.log 2 ((1 : ℚ) + (2 : ℚ) ^ (-60 : Int)) := by
    apply (Int.zpow_le_iff_le_log (by norm_num) hr).mp
    push_cast
    simpa using h1
  have hhi : Int.log 2 ((1 : ℚ) + (2 : ℚ) ^ (-60 : Int)) < 1 := by
    apply (Int.lt_zpow_iff_log_lt (by norm_num) hr).mp
    push_cast
    simpa using h2
  omega

/-- Float64 addition rounds: 1 + 2^-60 falls inside the ulp of 1 and
rounds back down to 1. -/
lemma round_one_add_eps :
    roundF64 ((1 : ℚ) + (2 : ℚ) ^ (-60 : Int)) = PyFloat.finite 1 := by
  have hpos : (0 : ℚ) < (2 : ℚ) ^ (-60 : Int) := zpow_pos (by norm_num) _
  have h0 : ((1 : ℚ) + (2 : ℚ) ^ (-60 : Int)) ≠ 0 := by positivity
  have habs : |(1 : ℚ) + (2 : ℚ) ^ (-60 : Int)| = 1 + (2 : ℚ) ^ (-60 : Int) :=
    abs_of_pos (by linarith)
  have hq : roundQF64 ((1 : ℚ) + (2 : ℚ) ^ (-60 : Int)) = 1 := by
    unfold roundQF64
    rw [ if_neg h0, habs, log_one_add_eps,
      show max ((0 : Int) - 52) (-1074) = -52 by decide]
    have hx : ((1 : ℚ) + (2 : ℚ) ^ (-60 : Int)) / (2 : ℚ) ^ (-52 : Int) =
        (((2 : Int) ^ (52 : Nat) : Int) : ℚ) + (2 : ℚ) ^ (-8 : Int) := by
      rw [div_eq_mul_inv, ← zpow_neg]
      rw [show -(-52 : Int) = (52 : Int) by norm_num]
      rw [add_mul, one_mul, ← zpow_add₀ (by norm_num : (2:ℚ) ≠ 0)]
      push_cast
      norm_num
    rw [hx]
    have hfl : ratFloor ((((2 : Int) ^ (52 : Nat) : Int) : ℚ) +
        (2 : ℚ) ^ (-8 : Int)) = (2 : Int) ^ (52 : Nat) := by
      rw [ratFloor_eq_floor]
      rw [Int.floor_eq_iff]
      constructor
      · have hp8 : (0 : ℚ) < (2 : ℚ) ^ (-8 : Int) := zpow_pos (by norm_num) _
        linarith
      · have hl8 : (2 : ℚ) ^ (-8 : Int) < 1 := by
          rw [show (-8 : Int) = -((8 : Nat) : Int) by norm_num, zpow_neg,
            zpow_natCast]
          norm_num
        linarith
    have hrh : roundHalfEven ((((2 : Int) ^ (52 : Nat) : Int) : ℚ) +
        (2 : ℚ) ^ (-8 : Int)) = (2 : Int) ^ (52 : Nat) := by
      unfold roundHalfEven
      rw [hfl]
      rw [ if_pos ?hcond]
      case hcond =>
        rw [add_sub_cancel_left]
        rw [show (-8 : Int) = -((8 : Nat) : Int) by norm_num, zpow_neg,
          zpow_natCast]
        norm_num
    rw [hrh]
    push_cast
    rw [show (-52 : Int) = -((52 : Nat) : Int) by norm_num, zpow_neg,
      zpow_natCast]
    norm_num
  unfold roundF64
  rw [hq]
  rw [ if_neg (by rw [abs_one]; norm_num)]

/-- C1 (code behavior): whatever the two comm_order bytes are - in
particular the encoding of 0, which the claim says selects big-endian -
the byte-order resolution of lines 107-111 yields little-endian,
because `struct.unpack` returns a one-element tuple and the comparison
`tuple == 0` is False for every tuple. -/
theorem C1_comm_order_ignored (bs : List Nat) (h : bs.length = 2) :
    resolveByteOrder bs = Except.ok ByteOrder.little := by
  unfold resolveByteOrder structUnpack
  rw [h]
  rfl

/-- C1 witness: the comm_order field bytes 00 00 decode to 0, yet the
resolved byte order is little-endian. -/
theorem C1_witness : resolveByteOrder [0, 0] = Except.ok ByteOrder.little :=
  C1_comm_order_ignored [0, 0] rfl

/-- C3 counterexample: the record_type code -1 is outside the bounds of
the 10-entry table, yet the lookup wraps around Python-style and
silently returns the last label instead of raising; and the
out-of-range code 10 raises IndexError, not the FormatError the claim
names (the source defines no FormatError). -/
theorem C3_counterexample :
    translateRecordType (-1) = Except.ok "peak detect" ∧
    translateRecordType 10 = Except.error PyError.indexError ∧
    PyError.indexError ≠ PyError.formatError := by
  refine ⟨rfl, rfl, by decide⟩

/-- C3 (amended): for each translated enum field, codes at or beyond
the table length and codes below minus the table length raise
IndexError (there is no FormatError in the code); negative codes within
minus the table length wrap around to index length + code; in-range
codes map by position, in particular record_type 3 is "graph", 9 is
"peak detect", and 10 raises IndexError. -/
theorem C3_enum_lookup (code : Int) :
    (translateRecordType code =
      if code < -(record_type_table.length : Int) ∨
          (record_type_table.length : Int) ≤ code then
        Except.error PyError.indexError
      else
        Except.ok (record_type_table.getD
          (if code < 0 then (record_type_table.length : Int) + code
           else code).toNat "")) ∧
    (translateProcessingDone code =
      if code < -(processing_done_table.length : Int) ∨
          (processing_done_table.length : Int) ≤ code then
        Except.error PyError.indexError
      else
        Except.ok (processing_done_table.getD
          (if code < 0 then (processing_done_table.length : Int) + code
           else code).toNat "")) ∧
    (translateVertCoupling code =
      if code < -(vert_coupling_table.length : Int) ∨
          (vert_coupling_table.length : Int) ≤ code then
        Except.error PyError.indexError
      else
        Except.ok (vert_coupling_table.getD
          (if code < 0 then (vert_coupling_table.length : Int) + code
           else code).toNat "")) ∧
    record_type_table.length = 10 ∧
    processing_done_table.length = 8 ∧
    vert_coupling_table.length = 5 ∧
    translateRecordType 3 = Except.ok "graph" ∧
    translateRecordType 9 = Except.ok "peak detect" ∧
    translateRecordType 10 = Except.error PyError.indexError :=
  ⟨pyListGet_eq record_type_table "" code,
   pyListGet_eq processing_done_table "" code,
   pyListGet_eq vert_coupling_table "" code,
   rfl, rfl, rfl, rfl, rfl, rfl⟩

/-- C5 counterexample: with raw sample 1, vertical_gain 1.0 and
vertical_offset 2^-60 (all exactly representable, the offset as a
float32), the scaled sample produced by lines 182-184 is the float64
value 1.0 - the addition rounds - and not the exact
raw * gain + offset = 1 + 2^-60 the claim demands. -/
theorem C5_counterexample :
    applyScaling [1] (PyFloat.finite 1)
      (PyFloat.finite ((2 : ℚ) ^ (-60 : Int))) = [PyFloat.finite 1] ∧
    (1 : ℚ) ≠ ((1 : Int) : ℚ) * 1 + (2 : ℚ) ^ (-60 : Int) := by
  constructor
  · unfold applyScaling
    rw [List.map_cons, List.map_nil]
    have hrep1 : RepresentableF64 (1 : ℚ) := by
      have h := representable_int 1 (by decide)
      rwa [Int.cast_one] at h
    have h1 : pfMul (PyFloat.finite ((1 : Int) : ℚ)) (PyFloat.finite 1) =
        PyFloat.finite 1 := by
      show roundF64 (((1 : Int) : ℚ) * 1) = PyFloat.finite 1
      rw [show ((1 : Int) : ℚ) * 1 = (1 : ℚ) by norm_num]
      exact roundF64_eq_self 1 hrep1
    rw [h1]
    rw [show pfAdd (PyFloat.finite 1)
        (PyFloat.finite ((2 : ℚ) ^ (-60 : Int))) = PyFloat.finite 1 from
      round_one_add_eps]
  · intro hcontra
    have hpos : (0 : ℚ) < (2 : ℚ) ^ (-60 : Int) := zpow_pos (by norm_num) _
    rw [Int.cast_one, one_mul] at hcontra
    linarith

/-- C5 (amended): with scaling requested each sample goes through
float64 arithmetic - the product raw[i] * vertical_gain and then its
sum with vertical_offset are each rounded to the nearest float64 (ties
to even) - so the scaling is linear up to one rounding per operation,
and sample i equals raw[i] * vertical_gain + vertical_offset exactly
whenever the product and the sum are representable float64 values; with
scaling not requested the raw decoded integers are returned
unmodified. -/
theorem C5_linear_scaling (dataRaw : List Int) (g o : ℚ) (vg vo : PyFloat)
    (i : Nat)
    (hrep1 : ∀ v ∈ dataRaw, RepresentableF64 ((v : ℚ) * g))
    (hrep2 : ∀ v ∈ dataRaw, RepresentableF64 ((v : ℚ) * g + o)) :
    scaleStep true dataRaw (PyFloat.finite g) (PyFloat.finite o) =
      SampleData.floats
        (applyScaling dataRaw (PyFloat.finite g) (PyFloat.finite o)) ∧
    (applyScaling dataRaw (PyFloat.finite g) (PyFloat.finite o))[i]? =
      (dataRaw[i]?).map (fun v : Int => PyFloat.finite ((v : ℚ) * g + o)) ∧
    scaleStep false dataRaw vg vo = SampleData.ints dataRaw := by
  refine ⟨rfl, ?_, rfl⟩
  unfold applyScaling
  rw [List.getElem?_map]
  cases hv : dataRaw[i]? with
  | none => rfl
  | some v =>
      have hmem : v ∈ dataRaw := by
        have h := List.getElem?_eq_some.mp hv
        obtain ⟨hlt, he⟩ := h
        exact he ▸ List.getElem_mem hlt
      have h1 : pfMul (PyFloat.finite ((v : Int) : ℚ)) (PyFloat.finite g) =
          PyFloat.finite ((v : ℚ) * g) :=
        roundF64_eq_self _ (hrep1 v hmem)
      simp only [Option.map_some']
      rw [h1]
      exact congrArg some (roundF64_eq_self _ (hrep2 v hmem))

/-- C5 witness: the spec's own scenario - raw samples 1, 2, 3, 4, gain
2.0, offset 1.0 - where every intermediate value is representable, so
the scaling is exact. -/
theorem C5_witness :
    scaleStep true ([1, 2, 3, 4] : List Int)
        (PyFloat.finite ((2 : Int) : ℚ)) (PyFloat.finite ((1 : Int) : ℚ)) =
      SampleData.floats (applyScaling ([1, 2, 3, 4] : List Int)
        (PyFloat.finite ((2 : Int) : ℚ)) (PyFloat.finite ((1 : Int) : ℚ))) ∧
    (applyScaling ([1, 2, 3, 4] : List Int) (PyFloat.finite ((2 : Int) : ℚ))
        (PyFloat.finite ((1 : Int) : ℚ)))[0]? =
      (([1, 2, 3, 4] : List Int)[0]?).map (fun v : Int =>
        PyFloat.finite ((v : ℚ) * ((2 : Int) : ℚ) + ((1 : Int) : ℚ))) ∧
    scaleStep false ([1, 2, 3, 4] : List Int) PyFloat.nan PyFloat.nan =
      SampleData.ints ([1, 2, 3, 4] : List Int) :=
  C5_linear_scaling [1, 2, 3, 4] ((2 : Int) : ℚ) ((1 : Int) : ℚ)
    PyFloat.nan PyFloat.nan 0
    (by intro v hv; apply representable_mulInt; fin_cases hv <;> decide)
    (by intro v hv; apply representable_mul_add_int; fin_cases hv <;> decide)

/-- C6 counterexample: a flat array of 3 samples with subarray_count 2
raises ValueError from the numpy reshape, not the FormatError the claim
names (the source defines no FormatError). -/
theorem C6_counterexample :
    samplesReshape 2 (SampleData.ints [1, 2, 3]) =
      Except.error PyError.valueError ∧
    PyError.valueError ≠ PyError.formatError := by
  refine ⟨rfl, by decide⟩

/-- C6 (amended): with subarray_count N greater than 1 the flat sample
sequence is reshaped into N rows of length len/N exactly when N divides
the length (the rows concatenate back to the flat sequence); a
non-exact division raises ValueError (not FormatError, which does not
exist in the code). -/
lemma samplesReshape_ints (sc : Int) (xs : List Int) (h : 1 < sc) :
    samplesReshape sc (SampleData.ints xs) =
      (npReshapeRows sc.toNat xs).map Samples.ints2 := by
  unfold samplesReshape
  rw [ if_pos h]

theorem C6_segment_reshape (N : Int) (xs : List Int) (hN : 1 < N) :
    (xs.length % N.toNat = 0 →
      ∃ rows : List (List Int),
        samplesReshape N (SampleData.ints xs) =
          Except.ok (Samples.ints2 rows) ∧
        rows.length = N.toNat ∧
        (∀ r ∈ rows, r.length = xs.length / N.toNat) ∧
        rows.flatten = xs) ∧
    (xs.length % N.toNat ≠ 0 →
      samplesReshape N (SampleData.ints xs) =
        Except.error PyError.valueError) := by
  constructor
  · intro hdvd
    refine ⟨(List.range N.toNat).map fun i =>
      (xs.drop (i * (xs.length / N.toNat))).take (xs.length / N.toNat),
      ?_, ?_, ?_, ?_⟩
    · rw [samplesReshape_ints N xs hN]
      unfold npReshapeRows
      rw [ if_pos hdvd]
      rfl
    · rw [List.length_map, List.length_range]
    · intro r hr
      obtain ⟨i, hi, hri⟩ := List.mem_map.mp hr
      have hiN : i < N.toNat := List.mem_range.mp hi
      have hmul : N.toNat * (xs.length / N.toNat) = xs.length :=
        Nat.mul_div_cancel' (Nat.dvd_of_mod_eq_zero hdvd)
      have hbound : (i + 1) * (xs.length / N.toNat) ≤ xs.length := by
        calc (i + 1) * (xs.length / N.toNat)
            ≤ N.toNat * (xs.length / N.toNat) :=
              Nat.mul_le_mul_right _ hiN
          _ = xs.length := hmul
      rw [← hri, List.length_take, List.length_drop]
      have hs : (i + 1) * (xs.length / N.toNat) =
          i * (xs.length / N.toNat) + xs.length / N.toNat :=
        Nat.succ_mul i _
      omega
    · have hmul : xs.length = N.toNat * (xs.length / N.toNat) :=
        (Nat.mul_div_cancel' (Nat.dvd_of_mod_eq_zero hdvd)).symm
      exact chunks_join (xs.length / N.toNat) N.toNat xs hmul
  · intro hnd
    rw [samplesReshape_ints N xs hN]
    unfold npReshapeRows
    rw [ if_neg hnd]
    rfl

/-- C6 witness: 4 samples with subarray_count 2 reshape into two rows
of two. -/
theorem C6_witness :
    ∃ rows : List (List Int),
      samplesReshape 2 (SampleData.ints ([1, 2, 3, 4] : List Int)) =
        Except.ok (Samples.ints2 rows) ∧
      rows.length = (2 : Int).toNat ∧
      (∀ r ∈ rows, r.length = ([1, 2, 3, 4] : List Int).length / (2 : Int).toNat) ∧
      rows.flatten = ([1, 2, 3, 4] : List Int) :=
  (C6_segment_reshape 2 ([1, 2, 3, 4] : List Int) (by decide)).1 (by decide)

/-- C8 counterexample: the trigger_time composite (struct format
"dbbbbhh") decodes to 7 elements, not the 8 the claim states. -/
theorem C8_counterexample :
    (structUnpack ByteOrder.little Fmt.dbbbbhh (List.replicate 16 0)).map
      List.length = Except.ok 7 ∧ (7 : Nat) ≠ 8 := by
  refine ⟨rfl, by decide⟩

/-- C8 (amended): the trigger_time composite decodes to 7 elements (one
double, four signed bytes, two shorts); the metadata value drops
exactly the last of the 7 and reverses the remaining 6. -/
theorem C8_trigger_time (bo : ByteOrder) (bs : List Nat)
    (h : bs.length = 16) :
    ∃ a b c d e f g : PyVal,
      structUnpack bo Fmt.dbbbbhh bs = Except.ok [a, b, c, d, e, f, g] ∧
      prettyTriggerTime [a, b, c, d, e, f, g] = [f, e, d, c, b, a] := by
  refine ⟨PyVal.float (decodeF64 (decodeUnsigned bo ((bs.drop 0).take 8))),
    PyVal.int (toSigned 8 (decodeUnsigned bo ((bs.drop 8).take 1))),
    PyVal.int (toSigned 8 (decodeUnsigned bo ((bs.drop 9).take 1))),
    PyVal.int (toSigned 8 (decodeUnsigned bo ((bs.drop 10).take 1))),
    PyVal.int (toSigned 8 (decodeUnsigned bo ((bs.drop 11).take 1))),
    PyVal.int (toSigned 16 (decodeUnsigned bo ((bs.drop 12).take 2))),
    PyVal.int (toSigned 16 (decodeUnsigned bo ((bs.drop 14).take 2))), ?_, rfl⟩
  unfold structUnpack
  rw [h]
  rfl

/-- C8 witness: the amended statement at a concrete 16-byte buffer. -/
theorem C8_witness :
    ∃ a b c d e f g : PyVal,
      structUnpack ByteOrder.big Fmt.dbbbbhh (List.replicate 16 0) =
        Except.ok [a, b, c, d, e, f, g] ∧
      prettyTriggerTime [a, b, c, d, e, f, g] = [f, e, d, c, b, a] :=
  C8_trigger_time ByteOrder.big (List.replicate 16 0) rfl

lemma ratCeil_natCast (n : Nat) : ratCeil ((n : Nat) : ℚ) = (n : Int) := by
  unfold ratCeil
  rw [Rat.num_natCast, Rat.den_natCast]
  norm_num

lemma npArange_natCast (n : Nat) :
    npArange ((n : Nat) : ℚ) = (List.range n).map fun i : Nat => (i : ℚ) := by
  unfold npArange
  rw [ratCeil_natCast, Int.toNat_natCast]

/-- C9 (code behavior): for a 4-sample trace with horiz_interval 2 and
horiz_offset 0 the source's `np.arange(points * dt + offset)` produces
the eight values 0, 1, ..., 7; in particular entry 1 is the float 1,
whereas the claimed axis `index * horiz_interval + horiz_offset` has
entry 1 equal to 2 (and only 4 entries). -/
theorem C9_time_axis :
    (get_times 4 2 0).length = 8 ∧
    (get_times 4 2 0)[1]? = some (1 : ℚ) ∧
    ((1 : ℚ) * 2 + 0 : ℚ) ≠ (1 : ℚ) ∧
    (specTimeAxis 4 2 0)[1]? = some ((1 : ℚ) * 2 + 0) ∧
    (specTimeAxis 4 2 0).length = 4 := by
  have harg : ((4 : Nat) : ℚ) * 2 + 0 = ((8 : Nat) : ℚ) := by push_cast; norm_num
  have hform : get_times 4 2 0 = (List.range 8).map fun i : Nat => (i : ℚ) := by
    unfold get_times
    rw [harg, npArange_natCast]
  refine ⟨?_, ?_, by norm_num, ?_, ?_⟩
  · rw [hform, List.length_map, List.length_range]
  · rw [hform, List.getElem?_map, List.getElem?_range (by norm_num)]
    norm_num
  · unfold specTimeAxis
    rw [List.getElem?_map, List.getElem?_range (by norm_num)]
    norm_num
  · unfold specTimeAxis
    rw [List.length_map, List.length_range]

/-- C7: time_base code 100 translates to the literal "external" (the
translation depends on no other field); every code with 0 <= code < 54
translates to the string "value prefixs/div" with the value drawn from
the 9-entry magnitude table at index code mod 9 and the prefix from the
6-entry prefix table at index code div 9. -/
theorem C7_time_base (tb : Int) (h0 : 0 ≤ tb) (h54 : tb < 54) :
    translateTimeBase 100 = Except.ok "external" ∧
    translateTimeBase tb =
      Except.ok (toString (magnitude_values.getD (Int.emod tb 9).toNat 0) ++
        " " ++ tb_prefixes.getD (Int.fdiv tb 9).toNat "" ++ "s/div") := by
  refine ⟨rfl, ?_⟩
  interval_cases tb <;> decide

/-- C7 witness: code 13 yields "20 ns/div" (value index 13 mod 9 = 4,
prefix index 13 div 9 = 1). -/
theorem C7_witness :
    translateTimeBase 100 = Except.ok "external" ∧
    translateTimeBase 13 =
      Except.ok (toString (magnitude_values.getD (Int.emod 13 9).toNat 0) ++
        " " ++ tb_prefixes.getD (Int.fdiv 13 9).toNat "" ++ "s/div") :=
  C7_time_base 13 (by decide) (by decide)

/-- The trigger-time step reduces to the Fortran-order reshape of the
flat list of doubles read off the file from base offset
`startpos + wave_descriptor + user_text`, when the file is long enough
for the `trig_time_array / 8` doubles. -/
lemma readTrigtimes_flat (raw : List Nat) (startpos wd ut : Int) (k : Nat)
    (hbase : 0 ≤ startpos + wd + ut)
    (hlen : (startpos + wd + ut).toNat + 8 * k ≤ raw.length) :
    readTrigtimes raw startpos wd ut ((8 * k : Nat) : Int) =
      reshape2F ((List.range k).map fun j =>
        decF64 ((raw.drop ((startpos + wd + ut).toNat + 8 * j)).take 8)) := by
  unfold readTrigtimes
  rw [tdiv_eight_mul k, pySliceFrom_of_nonneg raw _ hbase]
  have hfrom : npFromstring 8 (raw.drop (startpos + wd + ut).toNat)
      ((k : Nat) : Int) decF64 =
      Except.ok ((List.range k).map fun j =>
        decF64 ((raw.drop ((startpos + wd + ut).toNat + 8 * j)).take 8)) := by
    unfold npFromstring
    have hc1 : ¬ ((k : Int) < 0) := by omega
    have hc2 : ¬ ((raw.drop (startpos + wd + ut).toNat).length <
        8 * ((k : Int)).toNat) := by
      rw [List.length_drop, Int.toNat_natCast]
      omega
    rw [ if_neg hc1, if_neg hc2, Int.toNat_natCast]
    congr 1
    apply List.map_congr_left
    intro j _
    rw [List.drop_drop]
  rw [hfrom]

/-- The flat list of doubles read for the trigger step has exactly
`trig_time_array / 8` elements. -/
lemma range_map_length {α : Type} (k : Nat) (g : Nat → α) :
    ((List.range k).map g).length = k := by
  rw [List.length_map, List.length_range]

/-- C4 counterexample: on the flat double sequence a, b, c, d the
source's Fortran-order reshape (line 170) pairs (a, c) and (b, d) -
alternation - whereas the claimed column-major split into two halves
would pair (a, b) and (c, d). -/
theorem C4_counterexample :
    reshape2F [PyFloat.finite 0, PyFloat.finite 1, PyFloat.finite 2,
        PyFloat.finite 3] =
      Except.ok ([PyFloat.finite 0, PyFloat.finite 2],
        [PyFloat.finite 1, PyFloat.finite 3]) ∧
    ([PyFloat.finite 0, PyFloat.finite 2],
        [PyFloat.finite 1, PyFloat.finite 3]) ≠
      specSplitHalvesPairing [PyFloat.finite 0, PyFloat.finite 1,
        PyFloat.finite 2, PyFloat.finite 3] := by
  constructor
  · rfl
  · intro hc
    have h2 := congrArg (fun p => p.1[1]?) hc
    simp [specSplitHalvesPairing] at h2

/-- C4 (amended): with data extraction enabled the trigger-time block
is decoded as trig_time_array / 8 doubles starting at
base + wave_descriptor + user_text, and the (start-time, duration)
pairing is alternated element-by-element: the start-times row holds the
doubles at even flat positions (file offsets base + 16j) and the
durations row those at odd flat positions (file offsets base + 16j + 8);
the flat sequence is not split into two halves. -/
theorem C4_trigger_pairing (raw : List Nat) (startpos wd ut : Int) (k : Nat)
    (hk : k % 2 = 0) (hbase : 0 ≤ startpos + wd + ut)
    (hlen : (startpos + wd + ut).toNat + 8 * k ≤ raw.length) :
    ∃ starts durs : List PyFloat,
      readTrigtimes raw startpos wd ut ((8 * k : Nat) : Int) =
        Except.ok (starts, durs) ∧
      starts.length = k / 2 ∧ durs.length = k / 2 ∧
      (∀ j : Nat, starts[j]? =
        if 2 * j < k then
          some (decF64 ((raw.drop
            ((startpos + wd + ut).toNat + 8 * (2 * j))).take 8))
        else none) ∧
      (∀ j : Nat, durs[j]? =
        if 2 * j + 1 < k then
          some (decF64 ((raw.drop
            ((startpos + wd + ut).toNat + 8 * (2 * j + 1))).take 8))
        else none) := by
  have hred := readTrigtimes_flat raw startpos wd ut k hbase hlen
  set g : Nat → PyFloat := fun j =>
    decF64 ((raw.drop ((startpos + wd + ut).toNat + 8 * j)).take 8) with hg
  have hflat_get : ∀ m : Nat, ((List.range k).map g)[m]? =
      if m < k then some (g m) else none := by
    intro m
    by_cases hm : m < k
    · rw [ if_pos hm, List.getElem?_map, List.getElem?_range hm]
      rfl
    · rw [ if_neg hm]
      apply List.getElem?_eq_none
      rw [List.length_map, List.length_range]
      omega
  have hresh : reshape2F ((List.range k).map g) =
      Except.ok (evens ((List.range k).map g), odds ((List.range k).map g)) := by
    unfold reshape2F
    rw [ if_pos (by rw [range_map_length]; omega)]
  refine ⟨evens ((List.range k).map g), odds ((List.range k).map g),
    by rw [hred, hresh], ?_, ?_, ?_, ?_⟩
  · rw [evens_length, range_map_length]
    omega
  · rw [odds_length, range_map_length]
  · intro j
    rw [evens_getElem?, hflat_get]
  · intro j
    rw [odds_getElem?, hflat_get]

/-- C4 witness: two doubles in a 16-byte file starting at base 0. -/
theorem C4_witness :
    ∃ starts durs : List PyFloat,
      readTrigtimes (List.replicate 16 0) 0 0 0 ((8 * 2 : Nat) : Int) =
        Except.ok (starts, durs) ∧
      starts.length = 2 / 2 ∧ durs.length = 2 / 2 ∧
      (∀ j : Nat, starts[j]? =
        if 2 * j < 2 then
          some (decF64 (((List.replicate 16 0).drop
            (((0 : Int) + 0 + 0).toNat + 8 * (2 * j))).take 8))
        else none) ∧
      (∀ j : Nat, durs[j]? =
        if 2 * j + 1 < 2 then
          some (decF64 (((List.replicate 16 0).drop
            (((0 : Int) + 0 + 0).toNat + 8 * (2 * j + 1))).take 8))
        else none) :=
  C4_trigger_pairing (List.replicate 16 0) 0 0 0 2 (by decide) (by decide)
    (by simp)

/-- C10: when trig_time_array is 8k bytes for an odd k - a positive
multiple of 8 that is not a multiple of 16 - the flat sequence has an
odd number of doubles and the Fortran-order reshape of line 170 raises
ValueError, so reading with data extraction enabled fails at the
trigger-time pairing step. -/
theorem C10_odd_trigger_count (raw : List Nat) (startpos wd ut : Int)
    (k : Nat) (hk : k % 2 = 1) (hbase : 0 ≤ startpos + wd + ut)
    (hlen : (startpos + wd + ut).toNat + 8 * k ≤ raw.length) :
    readTrigtimes raw startpos wd ut ((8 * k : Nat) : Int) =
      Except.error PyError.valueError := by
  rw [readTrigtimes_flat raw startpos wd ut k hbase hlen]
  unfold reshape2F
  rw [ if_neg (by rw [range_map_length]; omega)]

/-- C10 witness: one double (trig_time_array = 8) in an 8-byte block. -/
theorem C10_witness :
    readTrigtimes (List.replicate 8 0) 0 0 0 ((8 * 1 : Nat) : Int) =
      Except.error PyError.valueError :=
  C10_odd_trigger_count (List.replicate 8 0) 0 0 0 1 (by decide) (by decide)
    (by simp)

/-- C2 counterexample: on a file without the WAVEDESC marker (here the
empty file), `read` does fail - but with a struct.error raised while
unpacking the header at the bogus base -1, not with a FormatError
raised by the locator: the source defines no FormatError and
`bytes.find` raises nothing. -/
theorem C2_counterexample :
    read [] true true = Except.error PyError.structError ∧
    PyError.structError ≠ PyError.formatError := by
  refine ⟨rfl, by decide⟩

/-- C2 (amended): for every input whose bytes do not contain the 8-byte
marker WAVEDESC, the locator (`bytes.find`) returns -1 without raising;
decoding proceeds with descriptor base -1 and fails with a struct error
during header unpacking (either at the byte-order read when the file is
shorter than 35 bytes, or at the first field whose shifted slice has
the wrong length), so no metadata record is returned.  No FormatError
is involved: the source defines no such exception. -/
theorem C2_missing_marker (raw : List Nat) (readdata scale : Bool)
    (h : ¬ ∃ s t : List Nat, raw = s ++ WAVEDESC ++ t) :
    read raw readdata scale = Except.error PyError.structError := by
  have hfind : bytesFind raw WAVEDESC = -1 := bytesFindFrom_eq_neg_one raw h 0
  have hmeta : readMeta raw = Except.error PyError.structError := by
    unfold readMeta
    rw [hfind]
    simp only [show dictLookup (sliceFields raw (-1)) "comm_order" =
      some (pySlice raw (-1 + 34) (-1 + 34 + ((2 : Nat) : Int))) from rfl]
    by_cases hL : raw.length < 35
    · have hbo : resolveByteOrder
          (pySlice raw (-1 + 34) (-1 + 34 + ((2 : Nat) : Int))) =
          Except.error PyError.structError := by
        unfold resolveByteOrder structUnpack
        have hsl : ¬ ((pySlice raw
            (-1 + 34) (-1 + 34 + ((2 : Nat) : Int))).length = fmtSize Fmt.h) := by
          rw [pySlice_length, pyIndex_nonneg_eq _ _ (by norm_num),
            pyIndex_nonneg_eq _ _ (by norm_num),
            show fmtSize Fmt.h = 2 from rfl]
          omega
        rw [ if_neg hsl]
      simp only [hbo]
    · have hsl : (pySlice raw
          (-1 + 34) (-1 + 34 + ((2 : Nat) : Int))).length = fmtSize Fmt.h := by
        rw [pySlice_length, pyIndex_nonneg_eq _ _ (by norm_num),
          pyIndex_nonneg_eq _ _ (by norm_num),
          show fmtSize Fmt.h = 2 from rfl]
        omega
      have hbo : resolveByteOrder
          (pySlice raw (-1 + 34) (-1 + 34 + ((2 : Nat) : Int))) =
          Except.ok ByteOrder.little := by
        unfold resolveByteOrder structUnpack
        rw [ if_pos hsl]
        rfl
      have hdesc : ¬ ((pySlice raw
          (-1 + 0) (-1 + 0 + ((16 : Nat) : Int))).length =
          fmtSize (Fmt.s 16)) := by
        rw [pySlice_length, pyIndex_nonneg_eq _ _ (by norm_num),
          pyIndex_neg_eq _ _ (by norm_num),
          show fmtSize (Fmt.s 16) = 16 from rfl]
        omega
      have hsu : structUnpack ByteOrder.little (Fmt.s 16)
          (pySlice raw (-1 + 0) (-1 + 0 + ((16 : Nat) : Int))) =
          Except.error PyError.structError := by
        unfold structUnpack
        rw [ if_neg hdesc]
      have hdf : decodeField ByteOrder.little "descriptor_name" (Fmt.s 16)
          (pySlice raw (-1 + 0) (-1 + 0 + ((16 : Nat) : Int))) =
          Except.error PyError.structError := by
        unfold decodeField
        rw [hsu]
      have hdec : decodeAll ByteOrder.little (sliceFields raw (-1)) =
          Except.error PyError.structError := by
        rw [show sliceFields raw (-1) =
          ("descriptor_name",
            pySlice raw (-1 + 0) (-1 + 0 + ((16 : Nat) : Int))) ::
            List.map (fun e => (e.1, pySlice raw ((-1) + e.2.1)
              ((-1) + e.2.1 + (fmtSize e.2.2 : Int)))) lecroy_format.tail
          from rfl]
        exact decodeAll_cons_error _ _ _ _ _ _ rfl hdf
      simp only [hbo, hdec]
  unfold read
  rw [hmeta]

/-- C2 witness: the empty file contains no WAVEDESC marker and reading
it fails with the struct error. -/
theorem C2_witness :
    read [] true true = Except.error PyError.structError :=
  C2_missing_marker [] true true
    (by rintro ⟨s, t, hst⟩; simp [WAVEDESC] at hst)

end Lecroy
